import Mathlib

/-!
Verification of the OpenTV EPG grabber (`src/epggrab/opentv.c`) of this
repository against its natural-language specification.

The C code is shallowly embedded: section buffers become `List Nat` of byte
values, pointer-walk loops become fuel-indexed structural recursions (the fuel
passed by every caller is an upper bound on the number of iterations, which is
finite because every loop advances its cursor by at least one), in-place
mutation of the partial-event red-black tree becomes explicit state passing
over an association list keyed by `(channel_id, event_id)`, and the external
collaborators that are not part of this repository's sources (the huffman
decoder, the OTA carousel subscription layer, the EPG store) are modelled from
the specification as explicit oracle parameters.
-/

namespace Opentv

/-- Read byte `i` of a section buffer.  C section payloads are arrays of
`uint8_t`; the `% 256` expresses that machine type on an unconstrained
`List Nat`.  Reads past the end of the list yield 0. -/
def byte (b : List Nat) (i : Nat) : Nat := b.getD i 0 % 256

theorem byte_lt_256 (b : List Nat) (i : Nat) : byte b i < 256 :=
  Nat.mod_lt _ (by norm_num)

/-! ## Event payload length (opentv.c line 349)

The C source computes the event payload length as
`((int)buf[2] & 0xf << 8) | buf[3]`.  Under C operator precedence `<<` binds
tighter than `&`, so this parses as `(buf[2] & (0xf << 8)) | buf[3]`.
`opentv_slen` embeds that actual parse; `opentv_slen_spec` embeds the
extraction the spec describes, `((buf[2] & 0x0F) << 8) | buf[3]`. -/

/-- Payload length of an event block as the C source actually computes it
(opentv.c line 349, with C precedence: `buf[2] & (0xf << 8) | buf[3]`). -/
def opentv_slen (b : List Nat) : Nat := (byte b 2 &&& (0xf <<< 8)) ||| byte b 3

/-- Payload length extraction as the specification words it:
the low 12 bits, `((buf[2] & 0x0F) << 8) | buf[3]`. -/
def opentv_slen_spec (b : List Nat) : Nat := ((byte b 2 &&& 0xf) <<< 8) ||| byte b 3

set_option maxRecDepth 2048 in
theorem and_f00_eq_zero_fin : ∀ x : Fin 256, x.val &&& 3840 = 0 := by decide

/-- A byte AND `0xf00` is zero, so the source's expression degenerates. -/
theorem byte_and_f00_eq_zero (b : List Nat) (i : Nat) : byte b i &&& (0xf <<< 8) = 0 := by
  have hs : (0xf <<< 8 : Nat) = 3840 := by simp [Nat.shiftLeft_eq]
  rw [hs]
  exact and_f00_eq_zero_fin ⟨byte b i, byte_lt_256 b i⟩

/-- MJD to Unix-time conversion, opentv.c lines 391-392:
`mjd = (mjd - 40587) * 86400`. -/
def mjd_to_unix (m : Int) : Int := (m - 40587) * 86400

/-! ## Carousel completion tracker (opentv.c `_opentv_table_callback`)

Per-PID status record `opentv_status_t`: status 0 = `OPENTV_STA_INIT`,
1 = `OPENTV_STA_STARTED`, 2 = `OPENTV_STA_COMPLETE`, plus the 20-byte
fingerprint `start`. -/

structure OpentvStatus where
  pid : Nat
  status : Nat
  start : List Nat
deriving DecidableEq

/-- Modelled from the spec: state of one `epggrab_ota_mux_t` handle.  The OTA
carousel subscription layer (`src/epggrab/ota.c`) is not among the given
sources; per spec section 6 it offers `register/is_complete/begin/complete`.
`begun` records that the current pass has begun, `completed` that
`complete()` was called for it. -/
structure OtaState where
  begun : Bool
  completed : Bool
deriving DecidableEq

/-- Modelled from the spec: `is_complete(handle) -> bool`. -/
def epggrab_ota_is_complete (o : OtaState) : Bool := o.completed

/-- Modelled from the spec: `begin(handle) -> bool`; returns true exactly when
a new pass starts (spec section 4.4: on a new pass all statuses reset). -/
def epggrab_ota_begin (o : OtaState) : Bool × OtaState :=
  if o.begun then (false, o) else (true, ⟨true, o.completed⟩)

/-- Modelled from the spec: `complete(handle)` marks the revolution done. -/
def epggrab_ota_complete (o : OtaState) : OtaState := ⟨o.begun, true⟩

/-- Combined per-module carousel state: the `mod->status` list (newest first,
as `LIST_INSERT_HEAD` does) and the OTA handle. -/
structure CarouselState where
  stas : List OpentvStatus
  ota : OtaState
deriving DecidableEq

/-- Result of one `_opentv_table_callback` invocation: the new state, whether
the callback returned `mod` (non-NULL, so section parsing proceeds), and
whether it invoked `epggrab_ota_complete`. -/
structure CallbackResult where
  st : CarouselState
  ret_mod : Bool
  called_complete : Bool
deriving DecidableEq

/-- One invocation of `_opentv_table_callback` (opentv.c lines 514-566) for a
section of `buf` arriving on `pid`.  `epggrab_ota_register` is modelled as
always succeeding (the failure path merely returns NULL with no state
change). -/
def _opentv_table_callback (s : CarouselState) (pid : Nat) (buf : List Nat) :
    CallbackResult :=
  if buf.length < 20 then ⟨s, false, false⟩
  else if epggrab_ota_is_complete s.ota then ⟨s, false, false⟩
  else
    let bo := epggrab_ota_begin s.ota
    let stas0 := if bo.1 then s.stas.map (fun t => ⟨t.pid, 0, t.start⟩) else s.stas
    let stas1 :=
      if stas0.any (fun t => t.pid == pid) then stas0
      else OpentvStatus.mk pid 0 (List.replicate 20 0) :: stas0
    let cur := (stas1.find? (fun t => t.pid == pid)).getD ⟨pid, 0, List.replicate 20 0⟩
    if cur.status = 0 then
      ⟨⟨stas1.map (fun t => if t.pid == pid then ⟨t.pid, 1, buf.take 20⟩ else t), bo.2⟩,
        true, false⟩
    else if cur.status = 1 ∧ cur.start = buf.take 20 then
      let stas2 := stas1.map (fun t => if t.pid == pid then ⟨t.pid, 2, t.start⟩ else t)
      if stas2.all (fun t => t.status == 2) then
        ⟨⟨stas2, epggrab_ota_complete bo.2⟩, false, true⟩
      else ⟨⟨stas2, bo.2⟩, true, false⟩
    else
      ⟨⟨stas1, epggrab_ota_complete bo.2⟩, false, true⟩

/-- Feed a list of `(pid, section)` inputs through the callback, collecting the
`called_complete` flag of each invocation. -/
def run_table_callbacks (s : CarouselState) :
    List (Nat × List Nat) → CarouselState × List Bool
  | [] => (s, [])
  | (pid, buf) :: rest =>
    let r := _opentv_table_callback s pid buf
    let rr := run_table_callbacks r.st rest
    (rr.1, r.called_complete :: rr.2)

/-! ## Partial events (opentv.c `opentv_event_t` and `_opentv_events`)

The C store is a single file-scope red-black tree `_opentv_events`, shared by
every provider module and keyed by `(cid, eid)` via `_ev_cmp`.  It is embedded
as an association list of events threaded through the parsing functions. -/

/-- `opentv_event_t` (opentv.c lines 251-265).  `calloc` zero-initialisation
is `freshEvent`.  Strings are byte lists; absent strings are `none`. -/
structure OpentvEvent where
  cid : Nat
  eid : Nat
  start : Int
  stop : Int
  title : Option (List Nat)
  summary : Option (List Nat)
  desc : Option (List Nat)
  cat : Nat
  series : Nat
  status : Nat
deriving DecidableEq

/-- The zeroed event `calloc(1, sizeof(opentv_event_t))` produces, with the
key fields filled in as `_opentv_parse_event` does on the skeleton. -/
def freshEvent (cid eid : Nat) : OpentvEvent :=
  ⟨cid, eid, 0, 0, none, none, none, 0, 0, 0⟩

/-- The global partial-event store `_opentv_events`. -/
abbrev EventStore : Type := List OpentvEvent

/-- `RB_FIND` on `_opentv_events` under `_ev_cmp`: lookup by `(cid, eid)`. -/
def ev_lookup (st : EventStore) (cid eid : Nat) : Option OpentvEvent :=
  st.find? (fun e => e.cid == cid && e.eid == eid)

/-- Store an event under its key: replace the entry with the same
`(cid, eid)` if present (in-place node mutation), otherwise insert it. -/
def ev_store (st : EventStore) (ev : OpentvEvent) : EventStore :=
  if st.any (fun e => e.cid == ev.cid && e.eid == ev.eid) then
    st.map (fun e => if e.cid == ev.cid && e.eid == ev.eid then ev else e)
  else ev :: st

/-- `RB_REMOVE` of the entry keyed `(cid, eid)`. -/
def ev_remove (st : EventStore) (cid eid : Nat) : EventStore :=
  st.filter (fun e => !(e.cid == cid && e.eid == eid))

/-- The keys present in the store. -/
def ev_keys (st : EventStore) : List (Nat × Nat) :=
  st.map (fun e => (e.cid, e.eid))

/-! ## Huffman string decoding (opentv.c `_opentv_parse_string`)

`huffman_decode` lives in `src/huffman.c`, which is not among the given
sources; it is modelled from the spec as an oracle: given the input byte
buffer and the (possibly negative) C `int` length, it either fails or returns
the decoded C string as a byte list. -/

/-- Modelled from the spec: the type of the external `huffman_decode` kernel
applied to a provider's dictionary (spec section 4.1); the oracle carries the
provider's `prov->dict->codes`. -/
def Hdec : Type := List Nat → Int → Option (List Nat)

/-- The fault condition of the allocation prologue of `_opentv_parse_string`
(opentv.c lines 288-289): `ret = tmp = malloc(len+1); *ret = 0;` with an
UNCHECKED C `int` length.  When `len + 1 < 0` the `int` converts to a
`size_t` of about `2^64`, `malloc` returns NULL and the unconditional
one-byte store `*ret = 0` dereferences NULL; when `len + 1 = 0`, `malloc(0)`
returns NULL or a zero-byte block and the store is a NULL dereference or a
one-byte heap overflow.  Either way the call faults (crashes or invokes
undefined behaviour) instead of returning a string. -/
def _opentv_parse_string_faults (len : Int) : Prop := len + 1 ≤ 0

/-- `_opentv_parse_string` (opentv.c lines 281-306), defined-behaviour path.
The prologue `malloc(len+1); *ret = 0` faults for every negative `len` — that
path is modelled by `_opentv_parse_string_faults` and never returns — so this
Option-valued function renders only the executions with `len ≥ 0`: run the
decoder, then scan the decoded C string (up to its NUL terminator) for a byte
above 0x20; if none is found the string is discarded and NULL returned. -/
def _opentv_parse_string (hdec : Hdec) (b : List Nat) (len : Int) :
    Option (List Nat) :=
  match hdec b len with
  | none => none
  | some s =>
    if (s.takeWhile (fun c => c ≠ 0)).any (fun c => 0x20 < c) then some s else none

/-! ## Event record parser (opentv.c `_opentv_parse_event_record`) -/

/-- `_opentv_parse_event_record` (opentv.c lines 309-341).  `b` is the record
buffer (`buf` of the C function), `len` the remaining C `int` byte count.
Returns the updated event and the cursor advance `rlen + 2`. -/
def _opentv_parse_event_record (hdec : Hdec) (b : List Nat) (len : Int)
    (mjd : Int) (ev : OpentvEvent) : OpentvEvent × Nat :=
  let rtag := byte b 0
  let rlen := byte b 1
  let ev' :=
    if (rlen : Int) + 2 ≤ len then
      if rtag = 0xb5 then
        let start : Int := (((byte b 2 <<< 9) ||| (byte b 3 <<< 1) : Nat) : Int) + mjd
        let stop : Int := (((byte b 4 <<< 9) ||| (byte b 5 <<< 1) : Nat) : Int) + start
        let title :=
          if ev.title = none then _opentv_parse_string hdec (b.drop 9) ((rlen : Int) - 7)
          else ev.title
        { ev with start := start, stop := stop, cat := byte b 6, title := title }
      else if rtag = 0xb9 then
        { ev with summary :=
            if ev.summary = none then _opentv_parse_string hdec (b.drop 2) (rlen : Int)
            else ev.summary }
      else if rtag = 0xbb then
        { ev with desc :=
            if ev.desc = none then _opentv_parse_string hdec (b.drop 2) (rlen : Int)
            else ev.desc }
      else if rtag = 0xc1 then
        { ev with series := (byte b 2 <<< 8) ||| byte b 3 }
      else ev
    else ev
  (ev', rlen + 2)

/-- Whether a `_opentv_parse_event_record` execution reaches a faulting
`_opentv_parse_string` call.  The only call site that can pass a negative
length is the 0xb5 title case (opentv.c line 323, length `rlen - 7`), and it
is reached exactly when the record fits (`rlen + 2 <= len`), the tag is 0xb5
and the event has no title yet; the 0xb9/0xbb sites pass `rlen ≥ 0`, which
never faults. -/
def parse_record_faults (b : List Nat) (len : Int) (ev : OpentvEvent) : Prop :=
  (byte b 1 : Int) + 2 ≤ len ∧ byte b 0 = 0xb5 ∧ ev.title = none ∧
    _opentv_parse_string_faults ((byte b 1 : Int) - 7)

/-- The record loop of `_opentv_parse_event` (opentv.c lines 363-367):
`while (i < slen+4) i += _opentv_parse_event_record(prov, *ev, buf+i, len-i, mjd)`.
Fuel-indexed structural recursion; every iteration advances `i` by at least 2,
so fuel `stop` always suffices. -/
def run_records (hdec : Hdec) (buf : List Nat) (len mjd : Int) :
    Nat → Nat → Nat → OpentvEvent → OpentvEvent
  | 0, _, _, ev => ev
  | fuel + 1, i, stop, ev =>
    if i < stop then
      let r := _opentv_parse_event_record hdec (buf.drop i) (len - i) mjd ev
      run_records hdec buf len mjd fuel (i + r.2) stop r.1
    else ev

/-- `_opentv_parse_event` (opentv.c lines 344-369).  `buf` is the event block
(the C `buf`), `len` the remaining section length, `cid` the section's channel
id, `mjd` the Unix time base.  Finds or creates the `(cid, eid)` entry of the
store, runs the record loop on it, and returns the updated store, the updated
event (the `*ev` out-parameter) and the block advance `slen + 4`. -/
def _opentv_parse_event (hdec : Hdec) (buf : List Nat) (len : Int) (cid : Nat)
    (mjd : Int) (st : EventStore) : EventStore × OpentvEvent × Nat :=
  let slen := opentv_slen buf
  let eid := (byte buf 0 <<< 8) ||| byte buf 1
  let ev0 := (ev_lookup st cid eid).getD (freshEvent cid eid)
  let ev1 := run_records hdec buf len mjd (slen + 4) 4 (slen + 4) ev0
  (ev_store st ev1, ev1, slen + 4)

/-! ## Channels and the external EPG store

`epggrab_module_channel_find`, the `channel_t` objects and the `epg_*` upsert
calls live outside the given sources; they are modelled from the spec
(sections 4.8 and 6) as a channel map plus an oracle environment, with every
external call recorded in an `EpgCall` trace. -/

/-- A `channel_t` as far as the grabber reads it: its name. -/
structure ChChannel where
  ch_name : String
deriving DecidableEq

/-- Modelled from the spec: the `_opentv_channels` epggrab-channel tree
(`epggrab_module_channel_find` is external).  Keyed by the `chid` string;
the value is the `ec->channel` binding (NULL = `none`). -/
def ChanMap : Type := List (String × Option ChChannel)

/-- Lookup with `create = 0`: `none` when no epggrab channel exists. -/
def chan_lookup (m : ChanMap) (k : String) : Option (Option ChChannel) :=
  (m.find? (fun p => p.1 == k)).map (fun p => p.2)

/-- The `"%s-%d"` key of `_opentv_find_epggrab_channel` (opentv.c line 204). -/
def opentv_chid (provId : String) (cid : Nat) : String :=
  provId ++ "-" ++ toString cid

/-- One call into the external EPG store (spec section 6). -/
inductive EpgCall where
  | episodeFindByUri (uri : String)
  | setTitle (t : List Nat)
  | setSummary (s : List Nat)
  | setDescription (d : List Nat)
  | setGenre (c : Nat)
  | seasonFind (uri : String)
  | setSeason (uri : String)
  | broadcastFindByTime (start stop : Int) (eid : Nat)
  | setEpisode
  | epgUpdated
deriving DecidableEq

/-- Modelled from the spec: oracles standing for the external EPG store's
state and return values (`epg.c` is not among the given sources).
`ehash` is `epg_hash`; `episodeFound` whether `epg_episode_find_by_uri`
returns non-NULL; `episodeHasSeason` whether `ee->season` is already set;
`seasonFound` whether `epg_season_find_by_uri` returns non-NULL;
`broadcastFound` whether `epg_broadcast_find_by_time` returns non-NULL;
`chg` whether a call reports a change (feeds the C `save` flag). -/
structure EpgEnv where
  ehash : Option (List Nat) → Option (List Nat) → Option (List Nat) → Option String
  episodeFound : String → Bool
  episodeHasSeason : String → Bool
  seasonFound : String → Bool
  broadcastFound : Int → Int → Nat → Bool
  chg : EpgCall → Bool

/-- Whether a call's change report feeds the outer `save` flag.
`_opentv_find_season` (opentv.c lines 208-215) uses a local `save` that is
discarded, so `seasonFind` does not. -/
def feeds_save : EpgCall → Bool
  | EpgCall.seasonFind _ => false
  | _ => true

/-- The emission block of `_opentv_parse_event_section` (opentv.c lines
406-437) for one completed event: episode lookup by content hash, field
upserts, optional season binding, broadcast binding.  Returns the trace of
EPG calls and the accumulated `save` contribution. -/
def emit_event (env : EpgEnv) (provId : String) (cid : Nat) (ev : OpentvEvent) :
    List EpgCall × Bool :=
  let calls :=
    match env.ehash ev.title ev.summary ev.desc with
    | none => []
    | some uri =>
      EpgCall.episodeFindByUri uri ::
      (if env.episodeFound uri then
        (match ev.title with | some t => [EpgCall.setTitle t] | none => []) ++
        (match ev.summary with | some s => [EpgCall.setSummary s] | none => []) ++
        (match ev.desc with | some d => [EpgCall.setDescription d] | none => []) ++
        (if ev.cat ≠ 0 then [EpgCall.setGenre ev.cat] else []) ++
        (if ev.series ≠ 0 && !env.episodeHasSeason uri then
          let suri := provId ++ "-" ++ toString cid ++ "-" ++ toString ev.series
          EpgCall.seasonFind suri ::
            (if env.seasonFound suri then [EpgCall.setSeason suri] else [])
        else []) ++
        (EpgCall.broadcastFindByTime ev.start ev.stop ev.eid ::
          (if env.broadcastFound ev.start ev.stop ev.eid then [EpgCall.setEpisode]
           else []))
      else [])
  (calls, calls.any (fun c => feeds_save c && env.chg c))

/-- Accumulator of the event loop of `_opentv_parse_event_section`. -/
structure SectionAcc where
  store : EventStore
  calls : List EpgCall
  save : Bool

/-- The event loop of `_opentv_parse_event_section` (opentv.c lines 395-445):
`while (i < len)` parse an event block, or in the role bit `typ`, and when
both `OPENTV_TITLE | OPENTV_SUMMARY` are present emit and remove the event.
Fuel-indexed; every iteration advances `i` by `slen + 4 ≥ 4`. -/
def section_loop (hdec : Hdec) (env : EpgEnv) (provId : String) (cid : Nat)
    (buf : List Nat) (len : Int) (typ : Nat) (mjd : Int) :
    Nat → Nat → SectionAcc → SectionAcc
  | 0, _, acc => acc
  | fuel + 1, i, acc =>
    if (i : Int) < len then
      let r := _opentv_parse_event hdec (buf.drop i) (len - i) cid mjd acc.store
      let ev2 := { r.2.1 with status := r.2.1.status ||| typ }
      if ev2.status ≠ 3 then
        section_loop hdec env provId cid buf len typ mjd fuel (i + r.2.2)
          ⟨ev_store r.1 ev2, acc.calls, acc.save⟩
      else
        let e := emit_event env provId cid ev2
        section_loop hdec env provId cid buf len typ mjd fuel (i + r.2.2)
          ⟨ev_remove r.1 ev2.cid ev2.eid, acc.calls ++ e.1, acc.save || e.2⟩
    else acc

/-- `_opentv_parse_event_section` (opentv.c lines 372-450).  `typ` is
`OPENTV_TITLE` (1) or `OPENTV_SUMMARY` (2).  Returns the updated partial-event
store and the trace of all external EPG calls (with `epg_updated` appended
when the accumulated `save` flag is set). -/
def _opentv_parse_event_section (hdec : Hdec) (env : EpgEnv) (provId : String)
    (chans : ChanMap) (buf : List Nat) (len : Int) (typ : Nat)
    (st : EventStore) : EventStore × List EpgCall :=
  let cid := (byte buf 0 <<< 8) ||| byte buf 1
  match chan_lookup chans (opentv_chid provId cid) with
  | none => (st, [])
  | some none => (st, [])
  | some (some ch) =>
    if ch.ch_name = "" then (st, [])
    else
      let mjd := mjd_to_unix (((byte buf 5 <<< 8) ||| byte buf 6 : Nat) : Int)
      let acc := section_loop hdec env provId cid buf len typ mjd len.toNat 7
        ⟨st, [], false⟩
      (acc.store, acc.calls ++ (if acc.save then [EpgCall.epgUpdated] else []))

/-! ## BAT decoder (opentv.c `_opentv_bat_section`) -/

/-- A broadcast service as far as the grabber reads it: its attached channel
`s_ch` (NULL = `none`). -/
structure BService where
  s_ch : Option ChChannel
deriving DecidableEq

/-- Modelled from the spec: the service manager's `(TSID, SID) -> service`
view walked by `_opentv_find_service` (the `dvb_adapters` structures are
external). -/
def ServiceEnv : Type := List ((Nat × Nat) × BService)

/-- `_opentv_find_service` (opentv.c lines 217-231): first service whose mux
TSID and service id match. -/
def _opentv_find_service (env : ServiceEnv) (tsid sid : Nat) : Option BService :=
  (env.find? (fun p => p.1.1 == tsid && p.1.2 == sid)).map (fun p => p.2)

/-- `_opentv_find_channel` (opentv.c lines 233-237):
`t ? t->s_ch : NULL`. -/
def _opentv_find_channel (env : ServiceEnv) (tsid sid : Nat) : Option ChChannel :=
  match _opentv_find_service env tsid sid with
  | none => none
  | some t => t.s_ch

/-- The per-record body of the BAT channel loop (opentv.c lines 489-501):
look the service up; if found, `_opentv_find_epggrab_channel(mod, cid, 1,
&save)` creates the epggrab channel when absent (setting `save`), and only
then `ec->channel = ch` binds it. -/
def bat_process_record (env : ServiceEnv) (provId : String) (chans : ChanMap)
    (tsid sid cid : Nat) : ChanMap :=
  match _opentv_find_channel env tsid sid with
  | none => chans
  | some ch =>
    if (chan_lookup chans (opentv_chid provId cid)).isSome then chans
    else (opentv_chid provId cid, some ch) :: chans

/-- Inner loop of `_opentv_bat_section` over the 9-byte channel records of a
0xb1 descriptor (opentv.c lines 484-503). -/
def bat_chan_loop (env : ServiceEnv) (provId : String) (buf : List Nat)
    (tsid : Nat) : Nat → Int → Nat → ChanMap → ChanMap
  | 0, _, _, chans => chans
  | fuel + 1, dlen, k, chans =>
    if 0 < dlen then
      let sid := (byte buf k <<< 8) ||| byte buf (k + 1)
      let cid := (byte buf (k + 3) <<< 8) ||| byte buf (k + 4)
      bat_chan_loop env provId buf tsid fuel (dlen - 9) (k + 9)
        (bat_process_record env provId chans tsid sid cid)
    else chans

/-- Middle loop of `_opentv_bat_section` over the descriptors of one
transport-stream entry (opentv.c lines 475-505); only tag 0xb1 is decoded. -/
def bat_desc_loop (env : ServiceEnv) (provId : String) (buf : List Nat)
    (tsid : Nat) : Nat → Int → Nat → ChanMap → ChanMap
  | 0, _, _, chans => chans
  | fuel + 1, tdlen, j, chans =>
    if 0 < tdlen then
      let dtag := byte buf j
      let dlen := byte buf (j + 1)
      let k := j + 2
      let chans' :=
        if dtag = 0xb1 then
          bat_chan_loop env provId buf tsid fuel ((dlen : Int) - 2) (k + 2) chans
        else chans
      bat_desc_loop env provId buf tsid fuel (tdlen - ((dlen : Int) + 2))
        (j + dlen + 2) chans'
    else chans

/-- Outer loop of `_opentv_bat_section` over transport-stream entries
(opentv.c lines 468-506). -/
def bat_ts_loop (env : ServiceEnv) (provId : String) (buf : List Nat) :
    Nat → Int → Nat → ChanMap → ChanMap
  | 0, _, _, chans => chans
  | fuel + 1, tslen, i, chans =>
    if 0 < tslen then
      let tsid := (byte buf i <<< 8) ||| byte buf (i + 1)
      let tdlen := ((byte buf (i + 4) &&& 0xf) <<< 8) ||| byte buf (i + 5)
      let chans' := bat_desc_loop env provId buf tsid fuel (tdlen : Int) (i + 6) chans
      bat_ts_loop env provId buf fuel (tslen - ((tdlen : Int) + 6)) (i + tdlen + 6)
        chans'
    else chans

/-- `_opentv_bat_section` (opentv.c lines 457-508): skip the bouquet
descriptor loop, then walk the transport-stream loop. -/
def _opentv_bat_section (env : ServiceEnv) (provId : String) (chans : ChanMap)
    (buf : List Nat) : ChanMap :=
  let i := 7 + (((byte buf 5 &&& 0xf) <<< 8) ||| byte buf 6)
  let tslen := ((byte buf i &&& 0xf) <<< 8) ||| byte buf (i + 1)
  bat_ts_loop env provId buf (tslen + 1) (tslen : Int) (i + 2) chans

/-! ## Lemmas about the record parser and the record loop -/

theorem parse_record_snd (hdec : Hdec) (b : List Nat) (len mjd : Int)
    (ev : OpentvEvent) :
    (_opentv_parse_event_record hdec b len mjd ev).2 = byte b 1 + 2 := rfl

theorem parse_record_key (hdec : Hdec) (b : List Nat) (len mjd : Int)
    (ev : OpentvEvent) :
    ((_opentv_parse_event_record hdec b len mjd ev).1).cid = ev.cid ∧
    ((_opentv_parse_event_record hdec b len mjd ev).1).eid = ev.eid := by
  simp only [_opentv_parse_event_record]
  split_ifs <;> simp

theorem parse_record_title_some (hdec : Hdec) (b : List Nat) (len mjd : Int)
    (ev : OpentvEvent) (t : List Nat) (h : ev.title = some t) :
    ((_opentv_parse_event_record hdec b len mjd ev).1).title = some t := by
  simp only [_opentv_parse_event_record]
  split_ifs <;> simp_all

theorem parse_record_summary_some (hdec : Hdec) (b : List Nat) (len mjd : Int)
    (ev : OpentvEvent) (t : List Nat) (h : ev.summary = some t) :
    ((_opentv_parse_event_record hdec b len mjd ev).1).summary = some t := by
  simp only [_opentv_parse_event_record]
  split_ifs <;> simp_all

theorem parse_record_desc_some (hdec : Hdec) (b : List Nat) (len mjd : Int)
    (ev : OpentvEvent) (t : List Nat) (h : ev.desc = some t) :
    ((_opentv_parse_event_record hdec b len mjd ev).1).desc = some t := by
  simp only [_opentv_parse_event_record]
  split_ifs <;> simp_all

theorem parse_record_title_congr (hdec : Hdec) (b : List Nat) (len mjd : Int)
    (ev1 ev2 : OpentvEvent) (h : ev1.title = ev2.title) :
    ((_opentv_parse_event_record hdec b len mjd ev1).1).title
      = ((_opentv_parse_event_record hdec b len mjd ev2).1).title := by
  simp only [_opentv_parse_event_record]
  split_ifs <;> simp_all

theorem parse_record_summary_congr (hdec : Hdec) (b : List Nat) (len mjd : Int)
    (ev1 ev2 : OpentvEvent) (h : ev1.summary = ev2.summary) :
    ((_opentv_parse_event_record hdec b len mjd ev1).1).summary
      = ((_opentv_parse_event_record hdec b len mjd ev2).1).summary := by
  simp only [_opentv_parse_event_record]
  split_ifs <;> simp_all

theorem parse_record_desc_congr (hdec : Hdec) (b : List Nat) (len mjd : Int)
    (ev1 ev2 : OpentvEvent) (h : ev1.desc = ev2.desc) :
    ((_opentv_parse_event_record hdec b len mjd ev1).1).desc
      = ((_opentv_parse_event_record hdec b len mjd ev2).1).desc := by
  simp only [_opentv_parse_event_record]
  split_ifs <;> simp_all

theorem run_records_key (hdec : Hdec) (buf : List Nat) (len mjd : Int) :
    ∀ (fuel i stop : Nat) (ev : OpentvEvent),
      (run_records hdec buf len mjd fuel i stop ev).cid = ev.cid ∧
      (run_records hdec buf len mjd fuel i stop ev).eid = ev.eid := by
  intro fuel
  induction fuel with
  | zero => intro i stop ev; simp [run_records]
  | succ f ih =>
    intro i stop ev
    simp only [run_records]
    by_cases hlt : i < stop
    · simp only [if_pos hlt]
      have h1 := parse_record_key hdec (buf.drop i) (len - i) mjd ev
      have h2 := ih (i + (_opentv_parse_event_record hdec (buf.drop i) (len - i) mjd ev).2)
        stop (_opentv_parse_event_record hdec (buf.drop i) (len - i) mjd ev).1
      exact ⟨h2.1.trans h1.1, h2.2.trans h1.2⟩
    · simp [if_neg hlt]

theorem run_records_field_some (g : OpentvEvent → Option (List Nat))
    (hg : ∀ (hdec : Hdec) (b : List Nat) (len mjd : Int) (ev : OpentvEvent)
      (t : List Nat), g ev = some t →
      g ((_opentv_parse_event_record hdec b len mjd ev).1) = some t)
    (hdec : Hdec) (buf : List Nat) (len mjd : Int) :
    ∀ (fuel i stop : Nat) (ev : OpentvEvent) (t : List Nat), g ev = some t →
      g (run_records hdec buf len mjd fuel i stop ev) = some t := by
  intro fuel
  induction fuel with
  | zero => intro i stop ev t h; simpa [run_records] using h
  | succ f ih =>
    intro i stop ev t h
    simp only [run_records]
    by_cases hlt : i < stop
    · simp only [if_pos hlt]
      exact ih _ _ _ t (hg hdec (buf.drop i) (len - i) mjd ev t h)
    · simpa [if_neg hlt] using h

theorem run_records_field_congr (g : OpentvEvent → Option (List Nat))
    (hg : ∀ (hdec : Hdec) (b : List Nat) (len mjd : Int) (ev1 ev2 : OpentvEvent),
      g ev1 = g ev2 →
      g ((_opentv_parse_event_record hdec b len mjd ev1).1)
        = g ((_opentv_parse_event_record hdec b len mjd ev2).1))
    (hdec : Hdec) (buf : List Nat) (len mjd : Int) :
    ∀ (fuel i stop : Nat) (ev1 ev2 : OpentvEvent), g ev1 = g ev2 →
      g (run_records hdec buf len mjd fuel i stop ev1)
        = g (run_records hdec buf len mjd fuel i stop ev2) := by
  intro fuel
  induction fuel with
  | zero => intro i stop ev1 ev2 h; simpa [run_records] using h
  | succ f ih =>
    intro i stop ev1 ev2 h
    simp only [run_records]
    by_cases hlt : i < stop
    · simp only [if_pos hlt]
      rw [parse_record_snd hdec (buf.drop i) (len - i) mjd ev1,
        parse_record_snd hdec (buf.drop i) (len - i) mjd ev2]
      exact ih _ _ _ _ (hg hdec (buf.drop i) (len - i) mjd ev1 ev2 h)
    · simpa [if_neg hlt] using h

theorem run_records_field_replay (g : OpentvEvent → Option (List Nat))
    (hgs : ∀ (hdec : Hdec) (b : List Nat) (len mjd : Int) (ev : OpentvEvent)
      (t : List Nat), g ev = some t →
      g ((_opentv_parse_event_record hdec b len mjd ev).1) = some t)
    (hgc : ∀ (hdec : Hdec) (b : List Nat) (len mjd : Int) (ev1 ev2 : OpentvEvent),
      g ev1 = g ev2 →
      g ((_opentv_parse_event_record hdec b len mjd ev1).1)
        = g ((_opentv_parse_event_record hdec b len mjd ev2).1))
    (hdec : Hdec) (buf : List Nat) (len mjd : Int) (fuel i stop : Nat)
    (ev : OpentvEvent) :
    g (run_records hdec buf len mjd fuel i stop
        (run_records hdec buf len mjd fuel i stop ev))
      = g (run_records hdec buf len mjd fuel i stop ev) := by
  cases h : g (run_records hdec buf len mjd fuel i stop ev) with
  | some t => exact run_records_field_some g hgs hdec buf len mjd fuel i stop _ t h
  | none =>
    have hev : g ev = none := by
      cases he : g ev with
      | none => rfl
      | some t =>
        rw [run_records_field_some g hgs hdec buf len mjd fuel i stop ev t he] at h
        exact Option.noConfusion h
    rw [run_records_field_congr g hgc hdec buf len mjd fuel i stop _ ev
      (by rw [h, hev])]
    exact h

/-! ## Lemmas about the partial-event store -/

theorem ev_lookup_key (st : EventStore) (cid eid : Nat) (e : OpentvEvent)
    (h : ev_lookup st cid eid = some e) : e.cid = cid ∧ e.eid = eid := by
  have hp := List.find?_some h
  simp only [Bool.and_eq_true, beq_iff_eq] at hp
  exact hp

theorem ev_lookup_mem (st : EventStore) (cid eid : Nat) (e : OpentvEvent)
    (h : ev_lookup st cid eid = some e) : e ∈ st :=
  List.mem_of_find?_eq_some h

theorem ev_lookup_any (st : EventStore) (cid eid : Nat) (e : OpentvEvent)
    (h : ev_lookup st cid eid = some e) :
    st.any (fun x => x.cid == cid && x.eid == eid) = true := by
  refine List.any_eq_true.mpr ⟨e, ev_lookup_mem st cid eid e h, ?_⟩
  have hk := ev_lookup_key st cid eid e h
  simp [hk.1, hk.2]

theorem ev_lookup_store_self (st : EventStore) (ev : OpentvEvent) :
    ev_lookup (ev_store st ev) ev.cid ev.eid = some ev := by
  unfold ev_store
  by_cases hp : st.any (fun e => e.cid == ev.cid && e.eid == ev.eid)
  · rw [if_pos hp]
    induction st with
    | nil => simp at hp
    | cons e t ih =>
      simp only [List.any_cons, Bool.or_eq_true] at hp
      by_cases hpe : (e.cid == ev.cid && e.eid == ev.eid) = true
      · simp [ev_lookup, List.find?, hpe]
      · have ht : t.any (fun x => x.cid == ev.cid && x.eid == ev.eid) = true := by
          rcases hp with hp | hp
          · exact absurd hp hpe
          · exact hp
        simp only [List.map_cons, ev_lookup, List.find?, hpe, if_neg hpe]
        simpa [ev_lookup, hpe] using ih ht
  · rw [if_neg hp]
    simp [ev_lookup, List.find?]

theorem ev_store_length (st : EventStore) (ev : OpentvEvent) :
    (ev_store st ev).length
      = if st.any (fun e => e.cid == ev.cid && e.eid == ev.eid) then st.length
        else st.length + 1 := by
  unfold ev_store
  split_ifs <;> simp [EventStore]

theorem ev_keys_store (st : EventStore) (ev : OpentvEvent) :
    ev_keys (ev_store st ev)
      = if st.any (fun e => e.cid == ev.cid && e.eid == ev.eid) then ev_keys st
        else (ev.cid, ev.eid) :: ev_keys st := by
  unfold ev_store
  by_cases hp : st.any (fun e => e.cid == ev.cid && e.eid == ev.eid)
  · rw [if_pos hp, if_pos hp]
    unfold ev_keys
    rw [List.map_map]
    refine List.map_congr_left ?_
    intro e _
    by_cases hpe : (e.cid == ev.cid && e.eid == ev.eid) = true
    · simp only [Bool.and_eq_true, beq_iff_eq] at hpe
      simp [hpe.1, hpe.2]
    · have hpe2 : ¬(e.cid = ev.cid ∧ e.eid = ev.eid) := by
        simpa [Bool.and_eq_true, beq_iff_eq] using hpe
      simp [hpe, hpe2]
  · rw [if_neg hp, if_neg hp]
    simp [ev_keys]

/-! ## Lemmas about `_opentv_parse_event` -/

theorem parse_event_fst (hdec : Hdec) (buf : List Nat) (len : Int) (cid : Nat)
    (mjd : Int) (st : EventStore) :
    (_opentv_parse_event hdec buf len cid mjd st).1
      = ev_store st (_opentv_parse_event hdec buf len cid mjd st).2.1 := rfl

theorem parse_event_snd (hdec : Hdec) (buf : List Nat) (len : Int) (cid : Nat)
    (mjd : Int) (st : EventStore) :
    (_opentv_parse_event hdec buf len cid mjd st).2.1
      = run_records hdec buf len mjd (opentv_slen buf + 4) 4 (opentv_slen buf + 4)
          ((ev_lookup st cid ((byte buf 0 <<< 8) ||| byte buf 1)).getD
            (freshEvent cid ((byte buf 0 <<< 8) ||| byte buf 1))) := rfl

theorem parse_event_key (hdec : Hdec) (buf : List Nat) (len : Int) (cid : Nat)
    (mjd : Int) (st : EventStore) :
    ((_opentv_parse_event hdec buf len cid mjd st).2.1).cid = cid ∧
    ((_opentv_parse_event hdec buf len cid mjd st).2.1).eid
      = (byte buf 0 <<< 8) ||| byte buf 1 := by
  rw [parse_event_snd]
  have hk := run_records_key hdec buf len mjd (opentv_slen buf + 4) 4
    (opentv_slen buf + 4)
    ((ev_lookup st cid ((byte buf 0 <<< 8) ||| byte buf 1)).getD
      (freshEvent cid ((byte buf 0 <<< 8) ||| byte buf 1)))
  rw [hk.1, hk.2]
  cases hl : ev_lookup st cid ((byte buf 0 <<< 8) ||| byte buf 1) with
  | none => simp [freshEvent]
  | some e =>
    have := ev_lookup_key st cid ((byte buf 0 <<< 8) ||| byte buf 1) e hl
    simp [this.1, this.2]

theorem parse_event_lookup_self (hdec : Hdec) (buf : List Nat) (len : Int)
    (cid : Nat) (mjd : Int) (st : EventStore) :
    ev_lookup (_opentv_parse_event hdec buf len cid mjd st).1 cid
        ((byte buf 0 <<< 8) ||| byte buf 1)
      = some (_opentv_parse_event hdec buf len cid mjd st).2.1 := by
  rw [parse_event_fst]
  have hk := parse_event_key hdec buf len cid mjd st
  have h := ev_lookup_store_self st (_opentv_parse_event hdec buf len cid mjd st).2.1
  rw [hk.1, hk.2] at h
  exact h

theorem parse_event_keys (hdec : Hdec) (buf : List Nat) (len : Int) (cid : Nat)
    (mjd : Int) (st : EventStore) :
    ev_keys (_opentv_parse_event hdec buf len cid mjd st).1
      = if st.any (fun e => e.cid == cid && e.eid == ((byte buf 0 <<< 8) ||| byte buf 1))
        then ev_keys st
        else (cid, (byte buf 0 <<< 8) ||| byte buf 1) :: ev_keys st := by
  rw [parse_event_fst]
  have hk := parse_event_key hdec buf len cid mjd st
  have h := ev_keys_store st (_opentv_parse_event hdec buf len cid mjd st).2.1
  rw [hk.1, hk.2] at h
  exact h

/-! ## Theorems -/

/-- C1: the event payload length as computed by opentv.c line 349 is NOT the
12-bit field `((buf[2] & 0x0F) << 8) | buf[3]` the claim states: C precedence
makes `((int)buf[2] & 0xf << 8) | buf[3]` parse as `(buf[2] & 0xf00) | buf[3]`,
and a byte AND 0xf00 is always 0, so the code computes just `buf[3]`.  At
`buf[2] = 0x01, buf[3] = 0x00` the code yields 0 where the claimed extraction
yields 256. -/
theorem C1_payload_length :
    (∀ b : List Nat, opentv_slen b = byte b 3) ∧
    opentv_slen [0, 0, 0x1, 0x0] = 0 ∧ opentv_slen_spec [0, 0, 0x1, 0x0] = 256 := by
  refine ⟨fun b => ?_, by decide, by decide⟩
  unfold opentv_slen
  rw [byte_and_f00_eq_zero]
  exact Nat.zero_or _

/-- C7: the MJD base conversion `(mjd - 40587) * 86400` of opentv.c line 392
is injective on all of `Int` (hence on the valid 16-bit MJD range), and
`mjd = 40587` maps to Unix time 0. -/
theorem C7_mjd_conversion :
    (∀ a b : Int, mjd_to_unix a = mjd_to_unix b → a = b) ∧ mjd_to_unix 40587 = 0 := by
  constructor
  · intro a b h
    unfold mjd_to_unix at h
    have h2 := mul_right_cancel₀ (by norm_num : (86400 : Int) ≠ 0) h
    omega
  · rfl

/-- C7 witness: injectivity applied at a concrete pair, and the base point. -/
theorem C7_mjd_conversion_witness :
    mjd_to_unix 59000 = mjd_to_unix 59000 ∧ (59000 : Int) = 59000 ∧
    mjd_to_unix 40587 = 0 :=
  ⟨rfl, C7_mjd_conversion.1 59000 59000 rfl, C7_mjd_conversion.2⟩

/-- C8: `_opentv_parse_event_record` returns `rlen + 2` for every record,
whatever the tag and even when the declared length exceeds the remaining
buffer (`rlen + 2 > len` only skips the switch); the caller's cursor in
`run_records` advances by exactly that return value. -/
theorem C8_record_advance (hdec : Hdec) (b : List Nat) (len mjd : Int)
    (ev : OpentvEvent) :
    (_opentv_parse_event_record hdec b len mjd ev).2 = byte b 1 + 2 := rfl

/-- C2 counterexample: a single PID 0x30 receives a first section `c2_a`
(status becomes STARTED) and then a different section `c2_b`; the callback
falls through its if/else-if chain straight to `epggrab_ota_complete`, so
`complete()` is invoked while the PID's status is STARTED (1), not COMPLETE
(2) — refuting that `complete()` is invoked only in all-COMPLETE states. -/
theorem C2_complete_not_all_complete :
    ((_opentv_table_callback
        (_opentv_table_callback ⟨[], ⟨false, false⟩⟩ 0x30 (List.replicate 20 1)).st
        0x30 (List.replicate 20 2)).called_complete = true) ∧
    ((_opentv_table_callback
        (_opentv_table_callback ⟨[], ⟨false, false⟩⟩ 0x30 (List.replicate 20 1)).st
        0x30 (List.replicate 20 2)).st.stas
      = [⟨0x30, 1, List.replicate 20 1⟩]) := by decide

/-- C2 (amended): once `complete()` has run, `epggrab_ota_is_complete` gates
every later callback, so `complete()` fires at most once per revolution; and
in the spec's scenario — PIDs 0x30, 0x31, 0x40 each receiving a first section
and then a repeat of its first 20 bytes — `complete()` fires exactly once,
after the third repeat.  (The all-COMPLETE precondition of the original claim
fails, see the counterexample.) -/
theorem C2_carousel :
    (∀ (s : CarouselState) (pid : Nat) (buf : List Nat),
      s.ota.completed = true →
      (_opentv_table_callback s pid buf).called_complete = false) ∧
    (run_table_callbacks ⟨[], ⟨false, false⟩⟩
        [(0x30, List.replicate 20 1), (0x31, List.replicate 20 2),
         (0x40, List.replicate 20 3), (0x30, List.replicate 20 1),
         (0x31, List.replicate 20 2), (0x40, List.replicate 20 3)]).2
      = [false, false, false, false, false, true] := by
  constructor
  · intro s pid buf h
    unfold _opentv_table_callback
    simp [epggrab_ota_is_complete, h]
  · decide

/-- C2 witness: the at-most-once half applied at a completed state. -/
theorem C2_carousel_witness :
    (⟨[], ⟨false, true⟩⟩ : CarouselState).ota.completed = true ∧
    (_opentv_table_callback ⟨[], ⟨false, true⟩⟩ 0 []).called_complete = false :=
  ⟨rfl, C2_carousel.1 ⟨[], ⟨false, true⟩⟩ 0 [] rfl⟩

/-- A concrete huffman oracle that always fails, for witnesses. -/
def hdec_none : Hdec := fun _ _ => none

/-- A concrete EPG-store oracle with nothing found and no changes, for
witnesses. -/
def epgenv0 : EpgEnv :=
  ⟨fun _ _ _ => none, fun _ => false, fun _ => false, fun _ => false,
   fun _ _ _ => false, fun _ => false⟩

/-- A concrete title section for channel id 0x42 (bytes 0-1), MJD 59000
(bytes 5-6), one event block `eid = 0x1234` with an 8-byte payload holding a
0xb5 title record; 20 bytes in total. -/
def c3_buf : List Nat :=
  [0x00, 0x42, 0, 0, 0, 0xe6, 0x78,
   0x12, 0x34, 0x00, 0x08,
   0xb5, 0x06, 0x02, 0x00, 0x00, 0x80, 0x10, 0x00, 0x00]

/-- C3 counterexample: the title section `c3_buf` for channel id 0x42, which
no BAT ever bound (empty channel map), is dropped by the `return 0` at
opentv.c line 386 before any event block is parsed: the partial-event store
stays empty — no partial event is created (the claim says one is created,
joined and only dropped at emission time) — and no EPG calls are made.
The same happens for the matching summary feed. -/
theorem C3_unknown_channel_counterexample :
    _opentv_parse_event_section hdec_none epgenv0 "sky" [] c3_buf 20 1 [] = ([], []) ∧
    _opentv_parse_event_section hdec_none epgenv0 "sky" [] c3_buf 20 2 [] = ([], []) := by
  constructor <;> rfl

/-- C3 (amended): when the section's channel id has no epggrab channel (never
bound by any BAT), `_opentv_parse_event_section` returns immediately after the
failed lookup: the partial-event store is unchanged — in particular no partial
event is created — and no EPG store call is made. -/
theorem C3_unknown_channel (hdec : Hdec) (env : EpgEnv) (provId : String)
    (chans : ChanMap) (buf : List Nat) (len : Int) (typ : Nat) (st : EventStore)
    (h : chan_lookup chans (opentv_chid provId ((byte buf 0 <<< 8) ||| byte buf 1))
      = none) :
    _opentv_parse_event_section hdec env provId chans buf len typ st = (st, []) := by
  unfold _opentv_parse_event_section
  simp [h]

/-- C3 witness: the amended theorem at the concrete section `c3_buf` over a
non-empty store, whose sole entry survives untouched. -/
theorem C3_unknown_channel_witness :
    chan_lookup [] (opentv_chid "sky" ((byte c3_buf 0 <<< 8) ||| byte c3_buf 1))
      = none ∧
    _opentv_parse_event_section hdec_none epgenv0 "sky" [] c3_buf 20 1
        [freshEvent 7 7] = ([freshEvent 7 7], []) :=
  ⟨rfl, C3_unknown_channel hdec_none epgenv0 "sky" [] c3_buf 20 1 [freshEvent 7 7] rfl⟩

/-- C4 counterexample: a BAT channel record whose `(TSID, SID) = (5, 6)`
lookup finds a service whose attached channel has the EMPTY name still
establishes the EPG-channel binding: opentv.c lines 489-499 check only
`if (ch)` and the `save` flag, never the channel name (that filter sits in
`_opentv_parse_event_section`, line 388).  This refutes the claim's
"records whose channel name is empty establish no binding". -/
theorem C4_empty_name_binds :
    bat_process_record [((5, 6), ⟨some ⟨""⟩⟩)] "sky" [] 5 6 9
      = [(opentv_chid "sky" 9, some ⟨""⟩)] := rfl

/-- C4 (amended): a BAT channel record establishes the EPG-channel binding if
and only if the service lookup by `(TSID, SID)` succeeds, the found service
has an attached channel (`t->s_ch`, whatever its name — the name is not
examined), and no epggrab channel entry exists yet for that channel id (the
`save` flag of the create-mode lookup); when an entry already exists the
record changes nothing. -/
theorem C4_bat_binding (env : ServiceEnv) (provId : String) (chans : ChanMap)
    (tsid sid cid : Nat) :
    (chan_lookup chans (opentv_chid provId cid) = none →
      chan_lookup (bat_process_record env provId chans tsid sid cid)
          (opentv_chid provId cid)
        = Option.map some (_opentv_find_channel env tsid sid)) ∧
    (∀ x, chan_lookup chans (opentv_chid provId cid) = some x →
      bat_process_record env provId chans tsid sid cid = chans) := by
  constructor
  · intro h
    unfold bat_process_record
    cases hc : _opentv_find_channel env tsid sid with
    | none => simpa [hc] using h
    | some ch =>
      unfold chan_lookup at h ⊢
      rw [h]
      simp
  · intro x h
    unfold bat_process_record
    cases hc : _opentv_find_channel env tsid sid with
    | none => rfl
    | some ch => simp [h]

/-- C4 witness: the amended characterization at a concrete service
environment with a named channel, starting from the empty channel map. -/
theorem C4_bat_binding_witness :
    chan_lookup [] (opentv_chid "sky" 9) = none ∧
    chan_lookup (bat_process_record [((5, 6), ⟨some ⟨"BBC"⟩⟩)] "sky" [] 5 6 9)
        (opentv_chid "sky" 9)
      = Option.map some (_opentv_find_channel [((5, 6), ⟨some ⟨"BBC"⟩⟩)] 5 6) :=
  ⟨rfl, (C4_bat_binding [((5, 6), ⟨some ⟨"BBC"⟩⟩)] "sky" [] 5 6 9).1 rfl⟩

/-- C5: first-writer-wins.  (a) A record merged into a partial event never
overwrites an existing (non-null) title, summary or description — the 0xb5 /
0xb9 / 0xbb cases of `_opentv_parse_event_record` are guarded by
`if (!ev->title)` etc.  (b) Feeding the identical event block a second time
performs no second insert (the store's entry count is unchanged) and leaves
the entry's title, summary and description exactly as after the first feed. -/
theorem C5_first_writer_wins :
    (∀ (hdec : Hdec) (b : List Nat) (len mjd : Int) (ev : OpentvEvent),
      (∀ t, ev.title = some t →
        ((_opentv_parse_event_record hdec b len mjd ev).1).title = some t) ∧
      (∀ t, ev.summary = some t →
        ((_opentv_parse_event_record hdec b len mjd ev).1).summary = some t) ∧
      (∀ t, ev.desc = some t →
        ((_opentv_parse_event_record hdec b len mjd ev).1).desc = some t)) ∧
    (∀ (hdec : Hdec) (buf : List Nat) (len : Int) (cid : Nat) (mjd : Int)
      (st : EventStore),
      ((_opentv_parse_event hdec buf len cid mjd
          (_opentv_parse_event hdec buf len cid mjd st).1).1).length
        = ((_opentv_parse_event hdec buf len cid mjd st).1).length ∧
      ((_opentv_parse_event hdec buf len cid mjd
          (_opentv_parse_event hdec buf len cid mjd st).1).2.1).title
        = ((_opentv_parse_event hdec buf len cid mjd st).2.1).title ∧
      ((_opentv_parse_event hdec buf len cid mjd
          (_opentv_parse_event hdec buf len cid mjd st).1).2.1).summary
        = ((_opentv_parse_event hdec buf len cid mjd st).2.1).summary ∧
      ((_opentv_parse_event hdec buf len cid mjd
          (_opentv_parse_event hdec buf len cid mjd st).1).2.1).desc
        = ((_opentv_parse_event hdec buf len cid mjd st).2.1).desc) := by
  constructor
  · intro hdec b len mjd ev
    exact ⟨fun t h => parse_record_title_some hdec b len mjd ev t h,
      fun t h => parse_record_summary_some hdec b len mjd ev t h,
      fun t h => parse_record_desc_some hdec b len mjd ev t h⟩
  · intro hdec buf len cid mjd st
    have hlook := parse_event_lookup_self hdec buf len cid mjd st
    have hsnd2 : (_opentv_parse_event hdec buf len cid mjd
        (_opentv_parse_event hdec buf len cid mjd st).1).2.1
        = run_records hdec buf len mjd (opentv_slen buf + 4) 4 (opentv_slen buf + 4)
          (_opentv_parse_event hdec buf len cid mjd st).2.1 := by
      rw [parse_event_snd hdec buf len cid mjd
        (_opentv_parse_event hdec buf len cid mjd st).1, hlook]
      rfl
    refine ⟨?_, ?_, ?_, ?_⟩
    · rw [parse_event_fst hdec buf len cid mjd
        (_opentv_parse_event hdec buf len cid mjd st).1]
      rw [ev_store_length]
      have hk := parse_event_key hdec buf len cid mjd
        (_opentv_parse_event hdec buf len cid mjd st).1
      rw [hk.1, hk.2]
      rw [ev_lookup_any (_opentv_parse_event hdec buf len cid mjd st).1 cid
        ((byte buf 0 <<< 8) ||| byte buf 1)
        (_opentv_parse_event hdec buf len cid mjd st).2.1 hlook]
      simp
    · rw [hsnd2, parse_event_snd hdec buf len cid mjd st]
      exact run_records_field_replay (fun e => e.title)
        (fun hd b l m e t h => parse_record_title_some hd b l m e t h)
        (fun hd b l m e1 e2 h => parse_record_title_congr hd b l m e1 e2 h)
        hdec buf len mjd _ _ _ _
    · rw [hsnd2, parse_event_snd hdec buf len cid mjd st]
      exact run_records_field_replay (fun e => e.summary)
        (fun hd b l m e t h => parse_record_summary_some hd b l m e t h)
        (fun hd b l m e1 e2 h => parse_record_summary_congr hd b l m e1 e2 h)
        hdec buf len mjd _ _ _ _
    · rw [hsnd2, parse_event_snd hdec buf len cid mjd st]
      exact run_records_field_replay (fun e => e.desc)
        (fun hd b l m e t h => parse_record_desc_some hd b l m e t h)
        (fun hd b l m e1 e2 h => parse_record_desc_congr hd b l m e1 e2 h)
        hdec buf len mjd _ _ _ _

/-- C5 witness: a partial event that already holds title `[72]` keeps it when
a further title record (tag 0xb5) is merged. -/
theorem C5_first_writer_wins_witness :
    (⟨1, 2, 0, 0, some [72], some [83], some [68], 0, 0, 0⟩ : OpentvEvent).title
      = some [72] ∧
    ((_opentv_parse_event_record hdec_none [0xb5, 9, 0, 0, 0, 0, 5, 0, 0, 1, 2] 20 0
        ⟨1, 2, 0, 0, some [72], some [83], some [68], 0, 0, 0⟩).1).title = some [72] :=
  ⟨rfl,
    (C5_first_writer_wins.1 hdec_none [0xb5, 9, 0, 0, 0, 0, 5, 0, 0, 1, 2] 20 0
      ⟨1, 2, 0, 0, some [72], some [83], some [68], 0, 0, 0⟩).1 [72] rfl⟩

/-! ## Lemmas for the `stop ≥ start` invariant (C6) -/

/-- The property C6 asserts of every broadcast handed to the EPG store. -/
def bc_ok : EpgCall → Prop
  | EpgCall.broadcastFindByTime s t _ => s ≤ t
  | _ => True

theorem parse_record_stop_ge (hdec : Hdec) (b : List Nat) (len mjd : Int)
    (ev : OpentvEvent) (h : ev.start ≤ ev.stop) :
    ((_opentv_parse_event_record hdec b len mjd ev).1).start
      ≤ ((_opentv_parse_event_record hdec b len mjd ev).1).stop := by
  simp only [_opentv_parse_event_record]
  split_ifs <;> simp_all

theorem run_records_stop_ge (hdec : Hdec) (buf : List Nat) (len mjd : Int) :
    ∀ (fuel i stop : Nat) (ev : OpentvEvent), ev.start ≤ ev.stop →
      (run_records hdec buf len mjd fuel i stop ev).start
        ≤ (run_records hdec buf len mjd fuel i stop ev).stop := by
  intro fuel
  induction fuel with
  | zero => intro i stop ev h; simpa [run_records] using h
  | succ f ih =>
    intro i stop ev h
    simp only [run_records]
    by_cases hlt : i < stop
    · simp only [if_pos hlt]
      exact ih _ _ _ (parse_record_stop_ge hdec (buf.drop i) (len - i) mjd ev h)
    · simpa [if_neg hlt] using h

theorem parse_event_stop_ge (hdec : Hdec) (buf : List Nat) (len : Int)
    (cid : Nat) (mjd : Int) (st : EventStore)
    (hst : ∀ e ∈ st, e.start ≤ e.stop) :
    ((_opentv_parse_event hdec buf len cid mjd st).2.1).start
      ≤ ((_opentv_parse_event hdec buf len cid mjd st).2.1).stop := by
  rw [parse_event_snd]
  apply run_records_stop_ge
  cases hl : ev_lookup st cid ((byte buf 0 <<< 8) ||| byte buf 1) with
  | none => simp [freshEvent]
  | some e =>
    simpa using hst e (ev_lookup_mem st cid ((byte buf 0 <<< 8) ||| byte buf 1) e hl)

theorem ev_store_mem (st : EventStore) (ev e' : OpentvEvent)
    (h : e' ∈ ev_store st ev) : e' = ev ∨ e' ∈ st := by
  unfold ev_store at h
  by_cases hp : st.any (fun e => e.cid == ev.cid && e.eid == ev.eid)
  · rw [if_pos hp] at h
    rcases List.mem_map.mp h with ⟨a, ha, heq⟩
    by_cases hpa : (a.cid == ev.cid && a.eid == ev.eid) = true
    · rw [if_pos hpa] at heq; exact Or.inl heq.symm
    · rw [if_neg hpa] at heq; exact Or.inr (heq ▸ ha)
  · rw [if_neg hp] at h
    rcases List.mem_cons.mp h with h | h
    · exact Or.inl h
    · exact Or.inr h

theorem ev_remove_mem (st : EventStore) (cid eid : Nat) (e' : OpentvEvent)
    (h : e' ∈ ev_remove st cid eid) : e' ∈ st :=
  List.mem_of_mem_filter h

theorem emit_event_bc_ok (env : EpgEnv) (provId : String) (cid : Nat)
    (ev : OpentvEvent) (h : ev.start ≤ ev.stop) :
    ∀ c ∈ (emit_event env provId cid ev).1, bc_ok c := by
  intro c hc
  cases c with
  | broadcastFindByTime s t e2 =>
    show s ≤ t
    unfold emit_event at hc
    cases he : env.ehash ev.title ev.summary ev.desc with
    | none => rw [he] at hc; simp at hc
    | some uri =>
      rw [he] at hc
      simp only [List.mem_cons] at hc
      rcases hc with hc | hc
      · exact absurd hc (by simp)
      · cases htt : ev.title <;> rw [htt] at hc <;>
          cases hts : ev.summary <;> rw [hts] at hc <;>
          cases htd : ev.desc <;> rw [htd] at hc <;>
          split_ifs at hc <;> simp at hc <;> omega
  | episodeFindByUri u => trivial
  | setTitle t => trivial
  | setSummary s => trivial
  | setDescription d => trivial
  | setGenre g => trivial
  | seasonFind u => trivial
  | setSeason u => trivial
  | setEpisode => trivial
  | epgUpdated => trivial

theorem section_loop_bc_ok (hdec : Hdec) (env : EpgEnv) (provId : String)
    (cid : Nat) (buf : List Nat) (len : Int) (typ : Nat) (mjd : Int) :
    ∀ (fuel i : Nat) (acc : SectionAcc),
      (∀ e ∈ acc.store, e.start ≤ e.stop) → (∀ c ∈ acc.calls, bc_ok c) →
      (∀ e ∈ (section_loop hdec env provId cid buf len typ mjd fuel i acc).store,
        e.start ≤ e.stop) ∧
      (∀ c ∈ (section_loop hdec env provId cid buf len typ mjd fuel i acc).calls,
        bc_ok c) := by
  intro fuel
  induction fuel with
  | zero => intro i acc h1 h2; exact ⟨h1, h2⟩
  | succ f ih =>
    intro i acc h1 h2
    simp only [section_loop]
    by_cases hlt : (i : Int) < len
    · simp only [if_pos hlt]
      have hev2 : ({ (_opentv_parse_event hdec (buf.drop i) (len - i) cid mjd
          acc.store).2.1 with
            status := (_opentv_parse_event hdec (buf.drop i) (len - i) cid mjd
              acc.store).2.1.status ||| typ } : OpentvEvent).start
          ≤ ({ (_opentv_parse_event hdec (buf.drop i) (len - i) cid mjd
          acc.store).2.1 with
            status := (_opentv_parse_event hdec (buf.drop i) (len - i) cid mjd
              acc.store).2.1.status ||| typ } : OpentvEvent).stop :=
        parse_event_stop_ge hdec (buf.drop i) (len - i) cid mjd acc.store h1
      have hstore1 : ∀ e ∈ (_opentv_parse_event hdec (buf.drop i) (len - i) cid mjd
          acc.store).1, e.start ≤ e.stop := by
        intro e he
        rw [parse_event_fst] at he
        rcases ev_store_mem _ _ _ he with rfl | he2
        · exact parse_event_stop_ge hdec (buf.drop i) (len - i) cid mjd acc.store h1
        · exact h1 e he2
      split_ifs with hst3
      · apply ih
        · intro e he
          rcases ev_store_mem _ _ _ he with rfl | he2
          · exact hev2
          · exact hstore1 e he2
        · exact h2
      · apply ih
        · intro e he
          exact hstore1 e (ev_remove_mem _ _ _ _ he)
        · intro c hcc
          rcases List.mem_append.mp hcc with hcc | hcc
          · exact h2 c hcc
          · exact emit_event_bc_ok env provId cid _ hev2 c hcc
    · simp only [if_neg hlt]
      exact ⟨h1, h2⟩

/-- C6: the title record (0xb5) encodes start and duration as non-negative
9-bit-quantum offsets `(b0<<9)|(b1<<1)` with `start = mjd + start_offset` and
`stop = start + duration_offset` (opentv.c lines 317-320), and consequently —
since fresh events have `start = stop = 0` and every record preserves the
inequality — every broadcast handed to the EPG emitter by
`_opentv_parse_event_section` satisfies `stop ≥ start`. -/
theorem C6_stop_ge_start :
    (∀ (hdec : Hdec) (b : List Nat) (len mjd : Int) (ev : OpentvEvent),
      byte b 0 = 0xb5 → (byte b 1 : Int) + 2 ≤ len →
      ((_opentv_parse_event_record hdec b len mjd ev).1).start
        = (((byte b 2 <<< 9) ||| (byte b 3 <<< 1) : Nat) : Int) + mjd ∧
      ((_opentv_parse_event_record hdec b len mjd ev).1).stop
        = (((byte b 4 <<< 9) ||| (byte b 5 <<< 1) : Nat) : Int)
          + ((_opentv_parse_event_record hdec b len mjd ev).1).start) ∧
    (∀ (hdec : Hdec) (env : EpgEnv) (provId : String) (chans : ChanMap)
      (buf : List Nat) (len : Int) (typ : Nat) (st : EventStore),
      (∀ e ∈ st, e.start ≤ e.stop) →
      ∀ c ∈ (_opentv_parse_event_section hdec env provId chans buf len typ st).2,
        bc_ok c) := by
  constructor
  · intro hdec b len mjd ev h1 h2
    simp only [_opentv_parse_event_record]
    simp [h1, h2]
  · intro hdec env provId chans buf len typ st hst c hc
    unfold _opentv_parse_event_section at hc
    cases hl : chan_lookup chans
        (opentv_chid provId ((byte buf 0 <<< 8) ||| byte buf 1)) with
    | none => simp [hl] at hc
    | some o =>
      cases o with
      | none => simp [hl] at hc
      | some ch =>
        simp only [hl] at hc
        split_ifs at hc with hn hsave
        · simp at hc
        · have hloop := section_loop_bc_ok hdec env provId
            ((byte buf 0 <<< 8) ||| byte buf 1) buf len typ
            (mjd_to_unix (((byte buf 5 <<< 8) ||| byte buf 6 : Nat) : Int))
            len.toNat 7 ⟨st, [], false⟩ hst (by simp)
          rcases List.mem_append.mp hc with hc | hc
          · exact hloop.2 c hc
          · rcases List.mem_singleton.mp hc with rfl
            trivial
        · have hloop := section_loop_bc_ok hdec env provId
            ((byte buf 0 <<< 8) ||| byte buf 1) buf len typ
            (mjd_to_unix (((byte buf 5 <<< 8) ||| byte buf 6 : Nat) : Int))
            len.toNat 7 ⟨st, [], false⟩ hst (by simp)
          rcases List.mem_append.mp hc with hc | hc
          · exact hloop.2 c hc
          · simp at hc

/-- C6 witness: the offset equations at a concrete title record, and the
emitter property at a concrete section over the empty store. -/
theorem C6_stop_ge_start_witness :
    (byte [0xb5, 7, 2, 0, 0, 0x80, 0x10] 0 = 0xb5 ∧
     (byte [0xb5, 7, 2, 0, 0, 0x80, 0x10] 1 : Int) + 2 ≤ 20 ∧
     ((_opentv_parse_event_record hdec_none [0xb5, 7, 2, 0, 0, 0x80, 0x10] 20 5
        (freshEvent 1 2)).1).start
       = (((byte [0xb5, 7, 2, 0, 0, 0x80, 0x10] 2 <<< 9)
            ||| (byte [0xb5, 7, 2, 0, 0, 0x80, 0x10] 3 <<< 1) : Nat) : Int) + 5) ∧
    (∀ c ∈ (_opentv_parse_event_section hdec_none epgenv0 "sky" [] c3_buf 20 1
        []).2, bc_ok c) :=
  ⟨⟨rfl, by decide,
    (C6_stop_ge_start.1 hdec_none [0xb5, 7, 2, 0, 0, 0x80, 0x10] 20 5
      (freshEvent 1 2) rfl (by decide)).1⟩,
   C6_stop_ge_start.2 hdec_none epgenv0 "sky" [] c3_buf 20 1 [] (by simp)⟩

/-- C9: refuted by the source — on the claim's entire input class the program
faults instead of leaving the title unset.  A fitting title record (0xb5)
whose declared length is below 7, merged into an event with no title yet,
reaches `_opentv_parse_string` with the negative C `int` length `rlen - 7`,
whose allocation prologue faults: `malloc(len+1)` at opentv.c line 288 gets a
huge (or zero) `size_t` and the unconditional `*ret = 0` at line 289
dereferences NULL (or overflows a zero-byte block).  The faulting executions
of the record parser are exactly the claim's input class, and the failing
input `[0xb5, 5, 2, 0, 0, 0x80, 0x10]` over a fresh event exhibits it.  (The
start/stop/category stores at lines 317-321 do execute before the faulting
call, but the process never returns from the record.) -/
theorem C9_short_title_record_faults :
    (∀ (b : List Nat) (len : Int) (ev : OpentvEvent),
      parse_record_faults b len ev ↔
        ((byte b 1 : Int) + 2 ≤ len ∧ byte b 0 = 0xb5 ∧ ev.title = none ∧
          byte b 1 < 7)) ∧
    parse_record_faults [0xb5, 5, 2, 0, 0, 0x80, 0x10] 20 (freshEvent 1 2) := by
  constructor
  · intro b len ev
    unfold parse_record_faults _opentv_parse_string_faults
    constructor
    · rintro ⟨h1, h2, h3, h4⟩
      exact ⟨h1, h2, h3, by omega⟩
    · rintro ⟨h1, h2, h3, h4⟩
      exact ⟨h1, h2, h3, by omega⟩
  · constructor
    · decide
    · exact ⟨rfl, rfl, by unfold _opentv_parse_string_faults; decide⟩

/-- C9 witness: the input-class characterization applied at the concrete
failing input, each conjunct discharged there. -/
theorem C9_short_title_record_faults_witness :
    parse_record_faults [0xb5, 5, 2, 0, 0, 0x80, 0x10] 20 (freshEvent 1 2) :=
  (C9_short_title_record_faults.1 [0xb5, 5, 2, 0, 0, 0x80, 0x10] 20
      (freshEvent 1 2)).mpr ⟨by decide, rfl, rfl, by decide⟩

/-- C10: the partial-event store is one process-wide structure keyed only by
`(cid, eid)` — `_opentv_events` is a file-scope tree with comparator `_ev_cmp`
and the embedding threads that single store through every module's parses.
(a) The set of keys produced by `_opentv_parse_event` is the same whatever
provider dictionary (`hdec`), section length or time base performs the parse:
entries carry no module identity.  (b) An entry inserted while processing one
provider's sections is found by a parse from any other provider's module and
merged in place — the entry count stays the same and the stored event is the
record-merge of the existing entry, so it is visible, mergeable and (once both
role bits are set) emittable by every module. -/
theorem C10_shared_store :
    (∀ (hdec1 hdec2 : Hdec) (buf : List Nat) (len1 len2 : Int) (cid : Nat)
      (mjd1 mjd2 : Int) (st : EventStore),
      ev_keys (_opentv_parse_event hdec1 buf len1 cid mjd1 st).1
        = ev_keys (_opentv_parse_event hdec2 buf len2 cid mjd2 st).1) ∧
    (∀ (hdec : Hdec) (buf : List Nat) (len : Int) (cid : Nat) (mjd : Int)
      (st : EventStore) (e : OpentvEvent),
      ev_lookup st cid ((byte buf 0 <<< 8) ||| byte buf 1) = some e →
      ((_opentv_parse_event hdec buf len cid mjd st).1).length = st.length ∧
      ev_lookup (_opentv_parse_event hdec buf len cid mjd st).1 cid
          ((byte buf 0 <<< 8) ||| byte buf 1)
        = some (run_records hdec buf len mjd (opentv_slen buf + 4) 4
            (opentv_slen buf + 4) e)) := by
  constructor
  · intro hdec1 hdec2 buf len1 len2 cid mjd1 mjd2 st
    rw [parse_event_keys, parse_event_keys]
  · intro hdec buf len cid mjd st e h
    constructor
    · rw [parse_event_fst, ev_store_length]
      have hk := parse_event_key hdec buf len cid mjd st
      rw [hk.1, hk.2]
      rw [ev_lookup_any st cid ((byte buf 0 <<< 8) ||| byte buf 1) e h]
      simp
    · rw [parse_event_lookup_self hdec buf len cid mjd st, parse_event_snd, h]
      rfl

/-- C10 witness: a store holding the key `(1, 2)` (inserted by some module) is
merged in place by a parse of an event block with the same key. -/
theorem C10_shared_store_witness :
    ev_lookup [freshEvent 1 2] 1 ((byte [0, 2, 0, 0] 0 <<< 8) ||| byte [0, 2, 0, 0] 1)
      = some (freshEvent 1 2) ∧
    ((_opentv_parse_event hdec_none [0, 2, 0, 0] 20 1 0 [freshEvent 1 2]).1).length
      = ([freshEvent 1 2] : EventStore).length ∧
    ev_lookup (_opentv_parse_event hdec_none [0, 2, 0, 0] 20 1 0 [freshEvent 1 2]).1 1
        ((byte [0, 2, 0, 0] 0 <<< 8) ||| byte [0, 2, 0, 0] 1)
      = some (run_records hdec_none [0, 2, 0, 0] 20 0 (opentv_slen [0, 2, 0, 0] + 4) 4
          (opentv_slen [0, 2, 0, 0] + 4) (freshEvent 1 2)) :=
  ⟨rfl, C10_shared_store.2 hdec_none [0, 2, 0, 0] 20 1 0 [freshEvent 1 2]
    (freshEvent 1 2) rfl⟩

end Opentv
